import Mathlib

/-!
Verification of the OpsNotebook backend core (config loader, variable
resolver, group aggregator, target manager transitions, HTTP proxy request
builder) as a shallow embedding of the Go source.

Modelling conventions:
- Go maps (`map[string]string`, `map[string]interface{}`) are modelled as
  association lists `List (String × String)`; a lookup on a missing key
  yields the Go zero value `""` where the source indexes the map directly.
- Values of type `interface{}` are opaque to the whole backend (never
  inspected, only copied and serialized); they are modelled as `String`.
- Map writes (`m[k] = v`) are modelled by `mapSet`, which removes any
  earlier binding of the key and appends the new one, so `find?`-style
  lookup sees exactly the Go map lookup.
- Process handles (`*exec.Cmd`) are modelled as `Option Nat` (a pid);
  cancellation tokens as `Option Unit`; times as `Nat`.
- Network and file I/O are cut at the boundary: functions take the decoded
  data the I/O would have produced (e.g. the parsed JSON `Config`, the
  handshake outcome) and return the request they would have dispatched.
-/

namespace OpsNotebook

/-! ## Association-list maps -/

/-- Go map write `m[k] = v`: drop any earlier binding of `k`, append the new one. -/
def mapSet {α : Type} (m : List (String × α)) (k : String) (v : α) : List (String × α) :=
  m.filter (fun kv => kv.1 ≠ k) ++ [(k, v)]

/-- Go map lookup returning an `Option`. -/
def mapFind {α : Type} (m : List (String × α)) (k : String) : Option α :=
  (m.find? (fun kv => kv.1 == k)).map (fun kv => kv.2)

/-- Go map lookup `m[k]` with the zero value `""` for a missing key. -/
def mapGet (m : List (String × String)) (k : String) : String :=
  (mapFind m k).getD ""

/-- Copy the entries of `src` into map `dst` one by one (`for k, v := range src`). -/
def mapSetAll {α : Type} (dst src : List (String × α)) : List (String × α) :=
  src.foldl (fun acc kv => mapSet acc kv.1 kv.2) dst

/-- Lookup taking the LAST binding of `k` in a raw entry list (later writes win). -/
def mapFindLast {α : Type} (m : List (String × α)) (k : String) : Option α :=
  mapFind m.reverse k

/-- First-some choice on options (Go overlay semantics). -/
def altO {α : Type} (a b : Option α) : Option α :=
  match a with
  | some x => some x
  | none => b

/-! ## Config data model (backend/internal/config/config.go) -/

/-- Go `VariableRule`: apply `Then` when every `When` entry equals the target tag. -/
structure VariableRule where
  When : List (String × String)
  Then : List (String × String)
deriving Repr, DecidableEq

/-- Go `TargetConfig`: a generic target system from the config file. -/
structure TargetConfig where
  ID : String
  Name : String
  Tags : List (String × String)
  Labels : List (String × String)
  DriverCmd : String
  Visual : List (String × String)
  Variables : List (String × String)
deriving Repr, DecidableEq

/-- Go `Config`: the parsed configuration file. -/
structure Config where
  GroupBy : List String
  Targets : List TargetConfig
  Variables : List VariableRule
deriving Repr, DecidableEq

/-- Go `DefaultGroupBy`: grouping used when the config does not specify one. -/
def DefaultGroupBy : List String := ["environment", "region", "name"]

/-- The loop body of `Config.Validate`, with the `seenIDs` set made explicit. -/
def validateLoop (seen : List String) : List TargetConfig → Except String Unit
  | [] => .ok ()
  | t :: ts =>
    if t.ID = "" then
      .error "target missing required id field"
    else if t.ID ∈ seen then
      .error ("duplicate target ID \"" ++ t.ID ++ "\" detected - IDs must be unique")
    else if t.DriverCmd = "" then
      .error ("target \"" ++ t.ID ++ "\" missing required driver_cmd")
    else
      validateLoop (t.ID :: seen) ts

/-- Go `Config.Validate`: reject empty ids, duplicate ids, empty driver commands. -/
def Config.Validate (c : Config) : Except String Unit :=
  validateLoop [] c.Targets

theorem validateLoop_ok_iff (ts : List TargetConfig) : ∀ seen : List String,
    validateLoop seen ts = .ok () ↔
      ((∀ t ∈ ts, t.ID ≠ "" ∧ t.DriverCmd ≠ "" ∧ t.ID ∉ seen) ∧
        (ts.map (fun t => t.ID)).Nodup) := by
  induction ts with
  | nil => intro seen; simp [validateLoop]
  | cons t ts ih =>
    intro seen
    by_cases hid : t.ID = ""
    · simp [validateLoop, hid]
    · by_cases hseen : t.ID ∈ seen
      · simp only [validateLoop, if_neg hid, if_pos hseen]
        constructor
        · intro h; exact absurd h (by simp)
        · rintro ⟨hall, -⟩
          exact absurd hseen (hall t (by simp)).2.2
      · by_cases hcmd : t.DriverCmd = ""
        · simp [validateLoop, hid, hseen, hcmd]
        · simp only [validateLoop, if_neg hid, if_neg hseen, if_neg hcmd]
          rw [ih (t.ID :: seen)]
          simp only [List.map_cons, List.nodup_cons]
          constructor
          · rintro ⟨hall, hnd⟩
            refine ⟨?_, ?_, hnd⟩
            · intro u hu
              rcases List.mem_cons.mp hu with h | h
              · subst h; exact ⟨hid, hcmd, hseen⟩
              · have := hall u h
                refine ⟨this.1, this.2.1, ?_⟩
                intro hmem; exact this.2.2 (List.mem_cons_of_mem _ hmem)
            · simp only [List.mem_map, not_exists, not_and]
              intro u hu heq
              exact (hall u hu).2.2 (by simp [heq])
          · rintro ⟨hall, hnotin, hnd⟩
            refine ⟨?_, hnd⟩
            intro u hu
            have h1 := hall u (List.mem_cons_of_mem _ hu)
            refine ⟨h1.1, h1.2.1, ?_⟩
            intro hmem
            rcases List.mem_cons.mp hmem with h | h
            · exact hnotin (List.mem_map.mpr ⟨u, hu, h⟩)
            · exact h1.2.2 h

/-- C7: config validation fails exactly when some target has an empty id, two
targets share an id, or some target has an empty driver_cmd; a configuration
with non-empty unique ids and non-empty driver commands validates. -/
theorem C7_validate_ok_iff (c : Config) :
    c.Validate = .ok () ↔
      ((∀ t ∈ c.Targets, t.ID ≠ "" ∧ t.DriverCmd ≠ "") ∧
        (c.Targets.map (fun t => t.ID)).Nodup) := by
  rw [Config.Validate, validateLoop_ok_iff c.Targets []]
  simp

/-! ## Variable resolver (Manager.ResolveVariables) -/

/-- Rule match: every `When` entry equals the target tag of the same key,
where `cfg.Tags[k]` yields the zero value `""` for a missing key. -/
def ruleMatches (tags : List (String × String)) (rule : VariableRule) : Bool :=
  rule.When.all (fun kv => mapGet tags kv.1 == kv.2)

/-- Go `Manager.ResolveVariables`: seed the result with the target variables,
then for each rule in declared order merge `Then` into the result when the
rule matches (last write wins). -/
def ResolveVariables (rules : List VariableRule) (cfg : TargetConfig) :
    List (String × String) :=
  rules.foldl
    (fun result rule =>
      if ruleMatches cfg.Tags rule then mapSetAll result rule.Then else result)
    (mapSetAll [] cfg.Variables)

/-- The resolver as the spec words it: the target variables as base layer,
overlaid in declared order with `rule.Then` for exactly the matching rules. -/
def resolveVariablesSpec (rules : List VariableRule) (cfg : TargetConfig) :
    List (String × String) :=
  mapSetAll (mapSetAll [] cfg.Variables)
    (((rules.filter (ruleMatches cfg.Tags)).map (fun r => r.Then)).flatten)

theorem mapSetAll_append (dst : List (String × String))
    (xs ys : List (String × String)) :
    mapSetAll dst (xs ++ ys) = mapSetAll (mapSetAll dst xs) ys := by
  simp [mapSetAll, List.foldl_append]

theorem resolveLoop_eq (tags : List (String × String)) :
    ∀ (rules : List VariableRule) (acc : List (String × String)),
      rules.foldl
          (fun result rule =>
            if ruleMatches tags rule then mapSetAll result rule.Then else result)
          acc =
        mapSetAll acc (((rules.filter (ruleMatches tags)).map (fun r => r.Then)).flatten) := by
  intro rules
  induction rules with
  | nil => intro acc; simp [mapSetAll]
  | cons r rs ih =>
    intro acc
    by_cases h : ruleMatches tags r
    · simp only [List.foldl_cons, if_pos h, List.filter_cons_of_pos h,
        List.map_cons, List.flatten_cons, mapSetAll_append]
      exact ih (mapSetAll acc r.Then)
    · simp only [List.foldl_cons, if_neg h,
        List.filter_cons_of_neg h]
      exact ih acc

/-- C3: `ResolveVariables` equals the target variables overlaid, in declared
rule order, with `rule.Then` for exactly the rules whose `When` entries all
equal the target tags; it is a pure (hence deterministic, non-mutating)
function of its inputs. -/
theorem C3_resolveVariables_eq_spec (rules : List VariableRule) (cfg : TargetConfig) :
    ResolveVariables rules cfg = resolveVariablesSpec rules cfg := by
  rw [ResolveVariables, resolveVariablesSpec, resolveLoop_eq]

/-! ## Runtime state (target package) -/

def StatusDisconnected : String := "disconnected"

def StatusConnecting : String := "connecting"

def StatusConnected : String := "connected"

def StatusError : String := "error"

/-- Go `ConnectionInfo`: the handshake data returned by the driver, plus the
internal `control_url` filled in by the supervisor. -/
structure ConnectionInfo where
  ControlURL : String
  URL : String
  Headers : List (String × String)
  Metadata : List (String × String)
deriving Repr, DecidableEq

/-- The Go zero value of `ConnectionInfo` (empty strings, nil maps). -/
def ConnectionInfo.zero : ConnectionInfo :=
  { ControlURL := "", URL := "", Headers := [], Metadata := [] }

/-- Go `State`: the runtime state of one target. The private process handle is
modelled as an optional pid, the cancellation token as an optional unit. -/
structure State where
  Config : TargetConfig
  Status : String
  Connection : ConnectionInfo
  Error : String
  LastChecked : Nat
  cmd : Option Nat
  cancel : Option Unit
deriving Repr, DecidableEq

/-! ## Group aggregation (api handleGroups) -/

/-- Go `getTag`: tag lookup with a default for a nil map or a missing key. -/
def getTag (tags : List (String × String)) (key dflt : String) : String :=
  match mapFind tags key with
  | some v => v
  | none => dflt

/-- The per-target entry of a group (`targetInfo` in `handleGroups`). -/
structure GroupTargetInfo where
  id : String
  status : String
  localURL : String
  headers : List (String × String)
  error : String
deriving Repr, DecidableEq

/-- One group of the `/api/groups` response (`groupInfo`). -/
structure GroupInfo where
  key : String
  values : List (String × String)
  targets : List (String × GroupTargetInfo)
deriving Repr, DecidableEq

/-- The group key: tag values of the `group_by` dimensions joined by `":"`,
with `"unknown"` for a missing tag (`strings.Join(keyParts, ":")`). -/
def groupKeyOf (groupBy : List String) (t : TargetConfig) : String :=
  String.intercalate ":" (groupBy.map (fun k => getTag t.Tags k "unknown"))

/-- The `values` map of a group: dimension to tag value. -/
def groupValuesOf (groupBy : List String) (t : TargetConfig) : List (String × String) :=
  groupBy.map (fun k => (k, getTag t.Tags k "unknown"))

/-- The fields of one target exposed in a group slot. -/
def groupTargetInfoOf (s : State) : GroupTargetInfo :=
  { id := s.Config.ID
    status := s.Status
    localURL := s.Connection.URL
    headers := s.Connection.Headers
    error := s.Error }

/-- One iteration of the `handleGroups` loop: create the bucket for the
target group key if absent, then write the target at its variant slot. -/
def addToGroups (groupBy : List String) (acc : List GroupInfo) (s : State) : List GroupInfo :=
  let key := groupKeyOf groupBy s.Config
  let variant := getTag s.Config.Tags "variant" "default"
  let info := groupTargetInfoOf s
  if acc.any (fun g => g.key == key) then
    acc.map (fun g => if g.key == key then { g with targets := mapSet g.targets variant info } else g)
  else
    acc ++ [{ key := key, values := groupValuesOf groupBy s.Config, targets := [(variant, info)] }]

/-- The `/api/groups` aggregation. Go iterates a map and emits the groups in
unspecified order; the embedding fixes the target list order and first-seen
group order, which is one of the admissible orders. -/
def buildGroups (groupBy : List String) (targets : List State) : List GroupInfo :=
  targets.foldl (addToGroups groupBy) []

/-! ## External target responses (api handleTargets, target status) -/

/-- One element of the `/api/targets` response (`targetInfo` in `handleTargets`). -/
structure APITargetInfo where
  config : TargetConfig
  status : String
  localURL : String
  headers : List (String × String)
  metadata : List (String × String)
  error : String
  Variables : List (String × String)
deriving Repr, DecidableEq

/-- The serialized fields of one target on `/api/targets`. -/
def apiTargetInfoOf (rules : List VariableRule) (s : State) : APITargetInfo :=
  { config := s.Config
    status := s.Status
    localURL := s.Connection.URL
    headers := s.Connection.Headers
    metadata := s.Connection.Metadata
    error := s.Error
    Variables := ResolveVariables rules s.Config }

/-- The `/api/targets` response body. -/
def targetsResponse (rules : List VariableRule) (targets : List State) : List APITargetInfo :=
  targets.map (apiTargetInfoOf rules)

/-- The default `/api/targets/(id)` response body: id, status, error. -/
def statusResponse (s : State) : String × String × String :=
  (s.Config.ID, s.Status, s.Error)

/-- Overwrite only the internal `Connection.ControlURL` field of a state. -/
def setControlURL (c : String) (s : State) : State :=
  { s with Connection := { s.Connection with ControlURL := c } }

theorem addToGroups_setControlURL (groupBy : List String) (acc : List GroupInfo)
    (s : State) (c : String) :
    addToGroups groupBy acc (setControlURL c s) = addToGroups groupBy acc s := rfl

/-- C4: the external API never reads `control_url`: changing only
`Connection.ControlURL` (state by state, by any assignment `f`) leaves the
`/api/targets` response, the `/api/groups` response and the per-target
status response unchanged. -/
theorem C4_control_url_not_emitted (rules : List VariableRule) (groupBy : List String)
    (targets : List State) (f : State → String) (s : State) (c : String) :
    targetsResponse rules (targets.map (fun t => setControlURL (f t) t)) =
        targetsResponse rules targets ∧
      buildGroups groupBy (targets.map (fun t => setControlURL (f t) t)) =
        buildGroups groupBy targets ∧
      statusResponse (setControlURL c s) = statusResponse s := by
  refine ⟨?_, ?_, rfl⟩
  · simp only [targetsResponse, List.map_map]
    rfl
  · rw [buildGroups, buildGroups]
    generalize ([] : List GroupInfo) = acc
    induction targets generalizing acc with
    | nil => rfl
    | cons t ts ih =>
      simp only [List.map_cons, List.foldl_cons]
      rw [addToGroups_setControlURL]
      exact ih _

/-! ## The spec scenario for group aggregation -/

/-- The primary target of spec scenario 6. -/
def sampleDbPrimary : State :=
  { Config :=
      { ID := "db-primary"
        Name := "db primary"
        Tags := [("env", "prod"), ("region", "us"), ("name", "db"), ("variant", "primary")]
        Labels := []
        DriverCmd := "python3 mock_driver.py"
        Visual := []
        Variables := [] }
    Status := "connected"
    Connection :=
      { ControlURL := "http://127.0.0.1:5001"
        URL := "http://127.0.0.1:9001"
        Headers := [("Authorization", "Bearer x")]
        Metadata := [] }
    Error := ""
    LastChecked := 0
    cmd := some 101
    cancel := some () }

/-- The replica target of spec scenario 6. -/
def sampleDbReplica : State :=
  { Config :=
      { ID := "db-replica"
        Name := "db replica"
        Tags := [("env", "prod"), ("region", "us"), ("name", "db"), ("variant", "replica")]
        Labels := []
        DriverCmd := "python3 mock_driver.py"
        Visual := []
        Variables := [] }
    Status := "connected"
    Connection :=
      { ControlURL := "http://127.0.0.1:5002"
        URL := "http://127.0.0.1:9002"
        Headers := []
        Metadata := [] }
    Error := ""
    LastChecked := 0
    cmd := some 102
    cancel := some () }

/-- A target carrying no tags at all. -/
def sampleUntagged : State :=
  { Config :=
      { ID := "bare"
        Name := "bare"
        Tags := []
        Labels := []
        DriverCmd := "python3 mock_driver.py"
        Visual := []
        Variables := [] }
    Status := "disconnected"
    Connection := ConnectionInfo.zero
    Error := ""
    LastChecked := 0
    cmd := none
    cancel := none }

/-- C2 counterexample: on the spec scenario the single group's key is
`"prod:us:db"` (the code joins with `":"`), not `"prod|us|db"` as claimed. -/
theorem C2_counterexample :
    (buildGroups ["env", "region", "name"] [sampleDbPrimary, sampleDbReplica]).map
        (fun g => g.key) = ["prod:us:db"] ∧
      ("prod:us:db" : String) ≠ "prod|us|db" := by
  constructor
  · rfl
  · decide

/-- C2 amended: the scenario yields exactly one group, keyed by the tag
values joined in group_by order by the separator `":"`, with the expected
values map and both variant slots; a target missing the group_by tags
contributes `"unknown"` dimensions and lands at slot `"default"`. -/
theorem C2_groups_aggregation :
    buildGroups ["env", "region", "name"] [sampleDbPrimary, sampleDbReplica] =
        [{ key := "prod:us:db"
           values := [("env", "prod"), ("region", "us"), ("name", "db")]
           targets := [("primary", groupTargetInfoOf sampleDbPrimary),
             ("replica", groupTargetInfoOf sampleDbReplica)] }] ∧
      buildGroups ["env", "region", "name"] [sampleUntagged] =
        [{ key := "unknown:unknown:unknown"
           values := [("env", "unknown"), ("region", "unknown"), ("name", "unknown")]
           targets := [("default", groupTargetInfoOf sampleUntagged)] }] := by
  constructor
  · rfl
  · rfl

/-! ## Lookup laws for map writes -/

theorem altO_none_left {α : Type} (b : Option α) : altO none b = b := rfl

theorem altO_some_left {α : Type} (x : α) (b : Option α) : altO (some x) b = some x := rfl

theorem altO_none_right {α : Type} (a : Option α) : altO a none = a := by
  cases a <;> rfl

theorem altO_assoc {α : Type} (a b c : Option α) :
    altO (altO a b) c = altO a (altO b c) := by
  cases a <;> rfl

theorem mapFind_nil {α : Type} (k : String) : mapFind ([] : List (String × α)) k = none := rfl

theorem mapFind_cons {α : Type} (a : String × α) (t : List (String × α)) (k : String) :
    mapFind (a :: t) k = if a.1 = k then some a.2 else mapFind t k := by
  by_cases h : a.1 = k
  · simp [mapFind, List.find?_cons, h]
  · simp [mapFind, List.find?_cons, h]

theorem mapFind_append {α : Type} (l₁ l₂ : List (String × α)) (k : String) :
    mapFind (l₁ ++ l₂) k = altO (mapFind l₁ k) (mapFind l₂ k) := by
  induction l₁ with
  | nil => simp [mapFind_nil, altO]
  | cons a t ih =>
    rw [List.cons_append, mapFind_cons, mapFind_cons]
    by_cases h : a.1 = k
    · rw [if_pos h, if_pos h, altO_some_left]
    · rw [if_neg h, if_neg h, ih]

theorem mapFind_filter_ne {α : Type} (m : List (String × α)) (k k' : String)
    (h : k ≠ k') :
    mapFind (m.filter (fun kv => kv.1 ≠ k')) k = mapFind m k := by
  induction m with
  | nil => rfl
  | cons a t ih =>
    by_cases ha : a.1 = k'
    · rw [List.filter_cons_of_neg (by simp [ha]), ih, mapFind_cons,
        if_neg (fun hh => h (by rw [← hh, ha]))]
    · rw [List.filter_cons_of_pos (by simp [ha]), mapFind_cons, mapFind_cons, ih]

theorem mapFind_filter_self {α : Type} (m : List (String × α)) (k' : String) :
    mapFind (m.filter (fun kv => kv.1 ≠ k')) k' = none := by
  induction m with
  | nil => rfl
  | cons a t ih =>
    by_cases ha : a.1 = k'
    · rw [List.filter_cons_of_neg (by simp [ha])]
      exact ih
    · rw [List.filter_cons_of_pos (by simp [ha]), mapFind_cons, if_neg ha]
      exact ih

theorem mapFind_mapSet {α : Type} (m : List (String × α)) (k k' : String) (v : α) :
    mapFind (mapSet m k' v) k = if k = k' then some v else mapFind m k := by
  rw [mapSet, mapFind_append]
  by_cases h : k = k'
  · subst h
    rw [mapFind_filter_self, altO_none_left, if_pos rfl, mapFind_cons, if_pos rfl]
  · rw [mapFind_filter_ne m k k' h, if_neg h, mapFind_cons,
      if_neg (fun hh => h hh.symm), mapFind_nil, altO_none_right]

theorem mapFind_mapSetAll {α : Type} (src : List (String × α)) :
    ∀ (dst : List (String × α)) (k : String),
      mapFind (mapSetAll dst src) k = altO (mapFindLast src k) (mapFind dst k) := by
  induction src with
  | nil => intro dst k; rfl
  | cons a t ih =>
    intro dst k
    have h1 : mapSetAll dst (a :: t) = mapSetAll (mapSet dst a.1 a.2) t := rfl
    rw [h1, ih, mapFind_mapSet]
    have h2 : mapFindLast (a :: t) k =
        altO (mapFindLast t k) (if k = a.1 then some a.2 else none) := by
      rw [mapFindLast, List.reverse_cons, mapFind_append, mapFindLast]
      congr 1
      rw [mapFind_cons, mapFind_nil]
      by_cases h : k = a.1
      · rw [if_pos h.symm, if_pos h]
      · rw [if_neg (fun hh => h hh.symm), if_neg h]
    rw [h2, altO_assoc]
    by_cases h : k = a.1
    · rw [if_pos h, if_pos h, altO_some_left]
    · rw [if_neg h, if_neg h, altO_none_left]

/-! ## HTTP proxy request construction (State.DoProxyRequest) -/

/-- Go `strings.TrimSuffix`: drop `suf` from the end of `s` when present. -/
def trimSuffix (s suf : String) : String :=
  if s.endsWith suf then s.dropRight suf.length else s

/-- The request to be dispatched by the proxy (method, full URL, headers as
written by `req.Header.Set`, body bytes). -/
structure ProxyRequest where
  method : String
  url : String
  headers : List (String × String)
  body : Option String
deriving Repr, DecidableEq

/-- The header writes the proxy performs before the driver headers:
`Accept: application/json` always, `Content-Type: application/json` iff the
body is non-nil. -/
def proxyDefaultHeaders (body : Option String) : List (String × String) :=
  let hdrs := mapSet ([] : List (String × String)) "Accept" "application/json"
  match body with
  | some _ => mapSet hdrs "Content-Type" "application/json"
  | none => hdrs

/-- Embedding of `State.DoProxyRequest` up to the network dispatch: the status and base
URL guards, then the construction of the outbound request. Returning
`.error` means nothing is dispatched; the function reads the state under the
read lock and never writes it. -/
def State.DoProxyRequest (s : State) (method path : String) (body : Option String) :
    Except String ProxyRequest :=
  if s.Status ≠ StatusConnected then
    .error ("target not connected (status: " ++ s.Status ++ ")")
  else if s.Connection.URL = "" then
    .error "target has no base URL"
  else
    .ok
      { method := method
        url := trimSuffix s.Connection.URL "/" ++ path
        headers := mapSetAll (proxyDefaultHeaders body) s.Connection.Headers
        body := body }

/-- The transport wrapper in `handleTargetAction`: a non-empty
`X-HTTP-Method-Override` header value replaces the inbound method. -/
def effectiveMethod (inbound overrideH : String) : String :=
  if overrideH ≠ "" then overrideH else inbound

/-- C5: on a non-connected state `DoProxyRequest` fails with
`target not connected (status: <s>)` and dispatches nothing; on a connected
state with an empty base URL it fails with `target has no base URL` and
dispatches nothing. The embedding is a pure read of the state, so the state
is unchanged. -/
theorem C5_proxy_guards (s : State) (method path : String) (body : Option String) :
    (s.Status ≠ StatusConnected →
        s.DoProxyRequest method path body =
          .error ("target not connected (status: " ++ s.Status ++ ")")) ∧
      (s.Status = StatusConnected → s.Connection.URL = "" →
        s.DoProxyRequest method path body = .error "target has no base URL") := by
  constructor
  · intro h
    rw [State.DoProxyRequest, if_pos h]
  · intro hst hurl
    rw [State.DoProxyRequest, if_neg (by simp [hst]), if_pos hurl]

/-- A state whose driver reported an empty `target_url` at handshake. -/
def sampleNoBase : State :=
  { sampleUntagged with
    Status := "connected"
    Connection := { ConnectionInfo.zero with ControlURL := "http://127.0.0.1:5003" } }

/-- C5 witness: both guards observed on concrete states. -/
theorem C5_proxy_guards_witness :
    sampleUntagged.DoProxyRequest "GET" "/x" none =
        .error ("target not connected (status: " ++ sampleUntagged.Status ++ ")") ∧
      sampleNoBase.DoProxyRequest "GET" "/x" none = .error "target has no base URL" :=
  ⟨(C5_proxy_guards sampleUntagged "GET" "/x" none).1 (by decide),
    (C5_proxy_guards sampleNoBase "GET" "/x" none).2 rfl rfl⟩

/-- C6: for a connected state with non-empty base URL, the dispatched request
has the URL built from the trailing-slash-trimmed base URL and the caller
path, the inbound method with a non-empty `X-HTTP-Method-Override` value
substituted, the body verbatim, and headers where every driver header entry
overrides the defaults `Accept: application/json` (always) and
`Content-Type: application/json` (iff the body is non-nil). -/
theorem C6_proxy_request_construction (s : State) (inbound overrideH path : String)
    (body : Option String) (hst : s.Status = StatusConnected)
    (hurl : s.Connection.URL ≠ "") :
    ∃ r : ProxyRequest,
      s.DoProxyRequest (effectiveMethod inbound overrideH) path body = .ok r ∧
        r.method = (if overrideH ≠ "" then overrideH else inbound) ∧
        r.url = trimSuffix s.Connection.URL "/" ++ path ∧
        r.body = body ∧
        (∀ k, mapFind r.headers k =
          altO (mapFindLast s.Connection.Headers k) (mapFind (proxyDefaultHeaders body) k)) ∧
        (mapFindLast s.Connection.Headers "Accept" = none →
          mapFind r.headers "Accept" = some "application/json") ∧
        (mapFindLast s.Connection.Headers "Content-Type" = none →
          mapFind r.headers "Content-Type" =
            if body.isSome then some "application/json" else none) := by
  refine ⟨{ method := effectiveMethod inbound overrideH
            url := trimSuffix s.Connection.URL "/" ++ path
            headers := mapSetAll (proxyDefaultHeaders body) s.Connection.Headers
            body := body }, ?_, rfl, rfl, rfl, ?_, ?_, ?_⟩
  · rw [State.DoProxyRequest, if_neg (by simp [hst]), if_neg hurl]
  · intro k
    exact mapFind_mapSetAll s.Connection.Headers (proxyDefaultHeaders body) k
  · intro hnone
    rw [mapFind_mapSetAll s.Connection.Headers (proxyDefaultHeaders body) "Accept",
      hnone, altO_none_left]
    cases body <;> rfl
  · intro hnone
    rw [mapFind_mapSetAll s.Connection.Headers (proxyDefaultHeaders body) "Content-Type",
      hnone, altO_none_left]
    cases body <;> rfl

/-- C6 witness: the construction applied to the connected sample target with
a method override, query-carrying path and non-nil body. -/
theorem C6_proxy_request_witness :
    ∃ r : ProxyRequest,
      sampleDbPrimary.DoProxyRequest (effectiveMethod "POST" "GET") "/search?q=1"
            (some "payload") = .ok r ∧
        r.method = (if ("GET" : String) ≠ "" then "GET" else "POST") ∧
        r.url = trimSuffix sampleDbPrimary.Connection.URL "/" ++ "/search?q=1" ∧
        r.body = some "payload" ∧
        (∀ k, mapFind r.headers k =
          altO (mapFindLast sampleDbPrimary.Connection.Headers k)
            (mapFind (proxyDefaultHeaders (some "payload")) k)) ∧
        (mapFindLast sampleDbPrimary.Connection.Headers "Accept" = none →
          mapFind r.headers "Accept" = some "application/json") ∧
        (mapFindLast sampleDbPrimary.Connection.Headers "Content-Type" = none →
          mapFind r.headers "Content-Type" =
            if (some "payload").isSome then some "application/json" else none) :=
  C6_proxy_request_construction sampleDbPrimary "POST" "GET" "/search?q=1"
    (some "payload") rfl (by decide)

/-! ## Supervisor transitions (Manager.Connect, crash watcher, Manager.Disconnect) -/

/-- The control-plane URL for a reserved port. -/
def controlURLOf (port : Nat) : String :=
  "http://127.0.0.1:" ++ toString port

/-- The outcome of the environment interactions of one Connect attempt:
port reservation, process start, readiness poll, handshake. `pid` is the
spawned driver process; `info` the decoded handshake body. -/
inductive ConnectOutcome where
  | portFailure (msg : String)
  | startFailure (msg : String)
  | driverNotReady (pid : Nat)
  | handshakeFailure (pid : Nat) (msg : String)
  | handshakeOk (pid : Nat) (info : ConnectionInfo)
deriving Repr, DecidableEq

/-- Go `Manager.setError`: store the message and move to the error status. -/
def setErrorTrans (s : State) (msg : String) : State :=
  { s with Status := StatusError, Error := msg }

/-- The state updates of one sequential `Manager.Connect` run, as a function
of the environment outcome (the crash watcher it forks is `watcherTrans`).
If the target is already connected or connecting the call returns with the
state untouched; otherwise it marks the state connecting, clears the error,
stores the process handle once spawned, and on a successful handshake stores
the returned `ConnectionInfo` with `ControlURL` filled in and marks the
state connected. No field of the handshake body is validated. -/
def connectRun (s : State) (outcome : ConnectOutcome) (port : Nat) (now : Nat) : State :=
  if s.Status = StatusConnected ∨ s.Status = StatusConnecting then s
  else
    let s1 := { s with Status := StatusConnecting, Error := "" }
    match outcome with
    | .portFailure msg => setErrorTrans s1 ("find port: " ++ msg)
    | .startFailure msg => setErrorTrans s1 ("start cmd: " ++ msg)
    | .driverNotReady pid =>
      setErrorTrans { s1 with cmd := some pid, cancel := some () }
        "driver failed to start http server"
    | .handshakeFailure pid msg =>
      setErrorTrans { s1 with cmd := some pid, cancel := some () }
        ("connect failed: " ++ msg)
    | .handshakeOk pid info =>
      { s1 with
        cmd := some pid
        cancel := some ()
        Connection := { info with ControlURL := controlURLOf port }
        Status := StatusConnected
        LastChecked := now }

/-- The under-lock transition of the crash watcher once the driver process
exits: if still connected, zero the connection and mark disconnected. The
watcher does not touch the process handle field. -/
def watcherTrans (s : State) : State :=
  if s.Status = StatusConnected then
    { s with Status := StatusDisconnected, Connection := ConnectionInfo.zero }
  else s

/-- Go `Manager.Disconnect` under the lock: clear both handles, zero the
connection, mark disconnected (the process-group kill happens outside). -/
def Disconnect (s : State) : State :=
  { s with
    cmd := none
    cancel := none
    Status := StatusDisconnected
    Connection := ConnectionInfo.zero }

/-- The registry entry created by `NewManager` for a target. -/
def freshState (t : TargetConfig) : State :=
  { Config := t
    Status := StatusDisconnected
    Connection := ConnectionInfo.zero
    Error := ""
    LastChecked := 0
    cmd := none
    cancel := none }

/-- C1 counterexample: a driver whose handshake body carries an empty
`target_url` still brings the target to `connected`, with
`connection.target_url = ""` — `Connect` reaches the connected status
without the non-emptiness the claim states. -/
theorem C1_counterexample :
    (connectRun (freshState sampleUntagged.Config)
          (.handshakeOk 7 { ControlURL := "", URL := "", Headers := [], Metadata := [] })
          5004 1).Status = StatusConnected ∧
      (connectRun (freshState sampleUntagged.Config)
            (.handshakeOk 7 { ControlURL := "", URL := "", Headers := [], Metadata := [] })
            5004 1).Connection.URL = "" := by
  constructor
  · rfl
  · rfl

/-- C1 amended: every Connect run that reaches `connected` has stored the
driver-returned `ConnectionInfo` verbatim with `control_url` set to the
(necessarily non-empty) control URL; `target_url` is stored unvalidated and
equals whatever the driver returned, possibly the empty string. -/
theorem C1_connect_stores_handshake (s : State) (pid : Nat) (info : ConnectionInfo)
    (port now : Nat)
    (h : ¬(s.Status = StatusConnected ∨ s.Status = StatusConnecting)) :
    (connectRun s (.handshakeOk pid info) port now).Status = StatusConnected ∧
      (connectRun s (.handshakeOk pid info) port now).Connection =
        { info with ControlURL := controlURLOf port } ∧
      (connectRun s (.handshakeOk pid info) port now).Connection.URL = info.URL ∧
      controlURLOf port ≠ "" := by
  rw [connectRun, if_neg h]
  refine ⟨rfl, rfl, rfl, ?_⟩
  intro hcontra
  have hlen := congrArg String.length hcontra
  rw [controlURLOf, String.length_append] at hlen
  simp at hlen
  exact absurd hlen.1 (by decide)

/-- A concrete handshake body returned by a driver. -/
def sampleHandshake : ConnectionInfo :=
  { ControlURL := "", URL := "http://127.0.0.1:9009", Headers := [], Metadata := [] }

/-- C1 witness: the amended statement at a concrete fresh state and driver
response. -/
theorem C1_connect_stores_handshake_witness :
    (connectRun (freshState sampleUntagged.Config)
          (.handshakeOk 7 sampleHandshake) 5004 1).Status = StatusConnected ∧
      (connectRun (freshState sampleUntagged.Config)
            (.handshakeOk 7 sampleHandshake) 5004 1).Connection =
        { sampleHandshake with ControlURL := controlURLOf 5004 } ∧
      (connectRun (freshState sampleUntagged.Config)
            (.handshakeOk 7 sampleHandshake) 5004 1).Connection.URL =
        sampleHandshake.URL ∧
      controlURLOf 5004 ≠ "" :=
  C1_connect_stores_handshake (freshState sampleUntagged.Config) 7
    sampleHandshake 5004 1 (by decide)

/-- C9 counterexample: the crash watcher transition on a connected state
leaves the exited process handle in place — the state is disconnected but
`cmd ≠ nil`, violating the claim that both disconnect paths establish
`cmd == nil`. -/
theorem C9_counterexample :
    (watcherTrans sampleDbPrimary).Status = StatusDisconnected ∧
      (watcherTrans sampleDbPrimary).cmd ≠ none := by
  constructor
  · rfl
  · decide

/-- C9 amended: `Disconnect` establishes invariant I2 in full (disconnected
status, nil process handle, nil cancellation token, zeroed connection); the
crash watcher transition from a connected state zeroes the connection and
sets the disconnected status but leaves the process handle unchanged (and
hence non-nil for a state that was connected with a live process). -/
theorem C9_disconnect_and_watcher (s : State) :
    (Disconnect s).Status = StatusDisconnected ∧
      (Disconnect s).cmd = none ∧
      (Disconnect s).cancel = none ∧
      (Disconnect s).Connection = ConnectionInfo.zero ∧
      (s.Status = StatusConnected →
        (watcherTrans s).Status = StatusDisconnected ∧
          (watcherTrans s).Connection = ConnectionInfo.zero ∧
          (watcherTrans s).cmd = s.cmd) := by
  refine ⟨rfl, rfl, rfl, rfl, ?_⟩
  intro h
  rw [watcherTrans, if_pos h]
  exact ⟨rfl, rfl, rfl⟩

/-- C9 witness: the amended statement at the concrete connected sample. -/
theorem C9_disconnect_and_watcher_witness :
    (Disconnect sampleDbPrimary).Status = StatusDisconnected ∧
      (Disconnect sampleDbPrimary).cmd = none ∧
      (Disconnect sampleDbPrimary).cancel = none ∧
      (Disconnect sampleDbPrimary).Connection = ConnectionInfo.zero ∧
      (sampleDbPrimary.Status = StatusConnected →
        (watcherTrans sampleDbPrimary).Status = StatusDisconnected ∧
          (watcherTrans sampleDbPrimary).Connection = ConnectionInfo.zero ∧
          (watcherTrans sampleDbPrimary).cmd = sampleDbPrimary.cmd) :=
  C9_disconnect_and_watcher sampleDbPrimary

/-! ## Glob matching (Go path/filepath.Match, unix build, rune = Char level) -/

/-- The first loop of `scanChunk`: strip the leading `*`s, remembering
whether there was at least one. -/
def stripStars : List Char → Bool × List Char
  | '*' :: cs => (true, (stripStars cs).2)
  | cs => (false, cs)

/-- The scan loop of `scanChunk`: collect pattern characters up to an
unbracketed `*`, skipping the character after a backslash and tracking
whether the position is inside a `[...]` range. -/
def chunkScan : List Char → Bool → List Char × List Char
  | [], _ => ([], [])
  | '\\' :: c2 :: cs, inrange =>
    let r := chunkScan cs inrange
    ('\\' :: c2 :: r.1, r.2)
  | ['\\'], _ => (['\\'], [])
  | '[' :: cs, _ =>
    let r := chunkScan cs true
    ('[' :: r.1, r.2)
  | ']' :: cs, _ =>
    let r := chunkScan cs false
    (']' :: r.1, r.2)
  | '*' :: cs, inrange =>
    if inrange then
      let r := chunkScan cs inrange
      ('*' :: r.1, r.2)
    else ([], '*' :: cs)
  | c :: cs, inrange =>
    let r := chunkScan cs inrange
    (c :: r.1, r.2)

/-- Go `scanChunk`: split the pattern into leading-star flag, first chunk, rest. -/
def scanChunk (pattern : List Char) : Bool × List Char × List Char :=
  let s := stripStars pattern
  let c := chunkScan s.2 false
  (s.1, c.1, c.2)

/-- Go `getEsc`: read a possibly-escaped range endpoint from a character class;
a bad pattern (empty, leading `-` or `]`, dangling escape, or nothing left
before the closing bracket) is an error. -/
def getEsc (chunk : List Char) : Except Unit (Char × List Char) :=
  match chunk with
  | [] => .error ()
  | c :: cs =>
    if c = '-' ∨ c = ']' then .error ()
    else if c = '\\' then
      match cs with
      | [] => .error ()
      | c2 :: cs2 => if cs2 = [] then .error () else .ok (c2, cs2)
    else if cs = [] then .error () else .ok (c, cs)

theorem getEsc_length (chunk : List Char) (r : Char) (rest : List Char)
    (h : getEsc chunk = .ok (r, rest)) : rest.length < chunk.length := by
  match chunk with
  | [] => simp [getEsc] at h
  | c :: cs =>
    simp only [getEsc.eq_def] at h
    by_cases h1 : c = '-' ∨ c = ']'
    · rw [if_pos h1] at h
      simp at h
    · rw [if_neg h1] at h
      by_cases h2 : c = '\\'
      · rw [if_pos h2] at h
        match cs with
        | [] => simp at h
        | c2 :: cs2 =>
          have h' : (if cs2 = [] then (Except.error () : Except Unit (Char × List Char))
              else .ok (c2, cs2)) = .ok (r, rest) := h
          by_cases h3 : cs2 = []
          · rw [if_pos h3] at h'; simp at h'
          · rw [if_neg h3] at h'
            simp only [Except.ok.injEq, Prod.mk.injEq] at h'
            rw [← h'.2]
            simp
            omega
      · rw [if_neg h2] at h
        by_cases h3 : cs = []
        · rw [if_pos h3] at h; simp at h
        · rw [if_neg h3] at h
          simp only [Except.ok.injEq, Prod.mk.injEq] at h
          rw [← h.2]
          simp

/-- The range-parsing loop of the `[` case of `matchChunk`: scan
`lo`/`lo-hi` entries against rune `r` until the closing `]` (which only
counts after at least one range). -/
def parseRanges (r : Char) (acc : Bool) (nrange : Nat) (chunk : List Char) :
    Except Unit (Bool × List Char) :=
  if 0 < nrange ∧ chunk.head? = some ']' then .ok (acc, chunk.tail)
  else
    match hlo : getEsc chunk with
    | .error _ => .error ()
    | .ok (lo, ch1) =>
      if ch1.head? = some '-' then
        match hhi : getEsc ch1.tail with
        | .error _ => .error ()
        | .ok (hi, ch2) =>
          parseRanges r (acc || (decide (lo ≤ r) && decide (r ≤ hi))) (nrange + 1) ch2
      else
        parseRanges r (acc || (decide (lo ≤ r) && decide (r ≤ lo))) (nrange + 1) ch1
termination_by chunk.length
decreasing_by
  · have hl1 := getEsc_length chunk lo ch1 hlo
    have hl2 := getEsc_length ch1.tail hi ch2 hhi
    have hl3 : ch1.tail.length ≤ ch1.length := by
      cases ch1 <;> simp
    omega
  · exact getEsc_length chunk lo ch1 hlo

theorem parseRanges_length_aux (r : Char) :
    ∀ (n : Nat) (chunk : List Char), chunk.length ≤ n →
      ∀ (acc : Bool) (nrange : Nat) (m : Bool) (rest : List Char),
        parseRanges r acc nrange chunk = .ok (m, rest) → rest.length ≤ chunk.length := by
  intro n
  induction n with
  | zero =>
    intro chunk hlen acc nrange m rest h
    have hc : chunk = [] := List.length_eq_zero.mp (Nat.le_zero.mp hlen)
    subst hc
    rw [parseRanges] at h
    simp [getEsc] at h
  | succ n ih =>
    intro chunk hlen acc nrange m rest h
    rw [parseRanges] at h
    split at h
    · simp only [Except.ok.injEq, Prod.mk.injEq] at h
      rw [← h.2]
      cases chunk <;> simp
    · split at h
      · simp at h
      · rename_i lo ch1 hlo
        have hch1 := getEsc_length chunk lo ch1 hlo
        split at h
        · split at h
          · simp at h
          · rename_i hi ch2 hhi
            have hch2 := getEsc_length ch1.tail hi ch2 hhi
            have htail : ch1.tail.length ≤ ch1.length := by cases ch1 <;> simp
            have := ih ch2 (by omega) _ _ _ _ h
            omega
        · have := ih ch1 (by omega) _ _ _ _ h
          omega

theorem parseRanges_length (r : Char) (chunk : List Char) (acc : Bool) (nrange : Nat)
    (m : Bool) (rest : List Char)
    (h : parseRanges r acc nrange chunk = .ok (m, rest)) : rest.length ≤ chunk.length :=
  parseRanges_length_aux r chunk.length chunk (Nat.le_refl _) acc nrange m rest h

/-- Go `matchChunk`: match one chunk against the front of `s`; on a mismatch
the scan continues with matching off (`failed`) so syntax errors are still
detected. Returns the unmatched remainder of `s` and whether it matched. -/
def matchChunk : List Char → List Char → Bool → Except Unit (List Char × Bool)
  | [], s, failed => if failed then .ok ([], false) else .ok (s, true)
  | '[' :: cs, s, failed =>
    let failed1 := failed || s.isEmpty
    let r := if failed1 then Char.ofNat 0 else s.headD (Char.ofNat 0)
    let s1 := if failed1 then s else s.tail
    let negated := decide (cs.head? = some '^')
    match hpr : parseRanges r false 0 (if negated then cs.tail else cs) with
    | .error _ => .error ()
    | .ok (matched, chunkRest) =>
      matchChunk chunkRest s1 (if matched = negated then true else failed1)
  | '?' :: cs, s, failed =>
    let failed1 := failed || s.isEmpty
    if failed1 then matchChunk cs s failed1
    else matchChunk cs s.tail (decide (s.headD (Char.ofNat 0) = '/'))
  | '\\' :: cs, s, failed =>
    match cs with
    | [] => .error ()
    | c2 :: cs2 =>
      let failed1 := failed || s.isEmpty
      if failed1 then matchChunk cs2 s failed1
      else matchChunk cs2 s.tail (decide (c2 ≠ s.headD (Char.ofNat 0)))
  | c :: cs, s, failed =>
    let failed1 := failed || s.isEmpty
    if failed1 then matchChunk cs s failed1
    else matchChunk cs s.tail (decide (c ≠ s.headD (Char.ofNat 0)))
termination_by chunk _ _ => chunk.length
decreasing_by
  · have h1 := parseRanges_length _ _ _ _ _ _ hpr
    simp only [List.length_cons]
    split at h1
    · cases cs with
      | nil => simp_all
      | cons d ds =>
        simp only [List.tail_cons] at h1
        simp only [List.length_cons]
        omega
    · omega
  all_goals simp only [List.length_cons]
  all_goals omega

/-- The inner star loop of `Match`: try to start the chunk at every later
position of `name`, never skipping past a `/`. `some t` means the outer loop
continues with remainder `t`. -/
def starLoop (chunk : List Char) (restEmpty : Bool) : List Char → Except Unit (Option (List Char))
  | [] => .ok none
  | c :: cs =>
    if c = '/' then .ok none
    else
      match matchChunk chunk cs false with
      | .error _ => .error ()
      | .ok (t, ok) =>
        if ok then
          if restEmpty ∧ t ≠ [] then starLoop chunk restEmpty cs
          else .ok (some t)
        else starLoop chunk restEmpty cs

theorem stripStars_length (p : List Char) : (stripStars p).2.length ≤ p.length := by
  induction p with
  | nil => simp [stripStars]
  | cons c cs ih =>
    rw [stripStars.eq_def]
    split
    · rename_i cs' heq
      injection heq with hc hcs
      subst hcs
      simp
      omega
    · simp

theorem stripStars_head (p : List Char) : (stripStars p).2.head? ≠ some '*' := by
  induction p with
  | nil => simp [stripStars]
  | cons c cs ih =>
    rw [stripStars.eq_def]
    split
    · rename_i cs' heq
      injection heq with hc hcs
      subst hcs
      simpa using ih
    · rename_i hne
      have hc : c ≠ '*' := by
        intro hc
        subst hc
        exact hne cs rfl
      simpa using hc

theorem chunkScan_append (cs : List Char) (b : Bool) :
    (chunkScan cs b).1 ++ (chunkScan cs b).2 = cs := by
  induction cs, b using chunkScan.induct <;> simp_all [chunkScan]

theorem chunkScan_chunk_ne_nil (c : Char) (cs : List Char) (b : Bool) (h : c ≠ '*') :
    (chunkScan (c :: cs) b).1 ≠ [] := by
  rw [chunkScan.eq_def]
  split <;> simp_all

theorem chunkScan_rest_lt (c : Char) (cs : List Char) (b : Bool) (h : c ≠ '*') :
    (chunkScan (c :: cs) b).2.length < (c :: cs).length := by
  have ha := congrArg List.length (chunkScan_append (c :: cs) b)
  rw [List.length_append] at ha
  have hc := List.length_pos.mpr (chunkScan_chunk_ne_nil c cs b h)
  omega

theorem scanChunk_rest_lt (p : List Char) (hp : p ≠ []) :
    (scanChunk p).2.2.length < p.length := by
  rw [scanChunk]
  rcases hq : (stripStars p).2 with _ | ⟨c, cs⟩
  · simpa [chunkScan] using List.length_pos.mpr hp
  · have hc : c ≠ '*' := by
      have hh := stripStars_head p
      rw [hq] at hh
      simpa using hh
    have h1 := chunkScan_rest_lt c cs false hc
    have h2 := stripStars_length p
    rw [hq] at h2
    simp only [hq]
    simp at h1 h2 ⊢
    omega

/-- The final loop of `Match`: after a match is impossible, the remaining
chunks are still scanned against the empty name so that a syntactically bad
pattern reports its error. -/
def checkRest (pattern : List Char) : Except Unit Bool :=
  match pattern with
  | [] => .ok false
  | c :: cs =>
    match matchChunk (scanChunk (c :: cs)).2.1 [] false with
    | .error _ => .error ()
    | .ok _ => checkRest (scanChunk (c :: cs)).2.2
termination_by pattern.length
decreasing_by
  exact scanChunk_rest_lt _ (by simp)

/-- The main loop of `filepath.Match`: scan one chunk, try it at the current
position, and on a leading star retry at every later non-`/` position. -/
def matchPat (pattern name : List Char) : Except Unit Bool :=
  match pattern with
  | [] => .ok name.isEmpty
  | c :: cs =>
    let star := (scanChunk (c :: cs)).1
    let chunk := (scanChunk (c :: cs)).2.1
    let rest := (scanChunk (c :: cs)).2.2
    if star ∧ chunk = [] then .ok (!name.contains '/')
    else
      match matchChunk chunk name false with
      | .error _ => .error ()
      | .ok (t, ok) =>
        if ok ∧ (t = [] ∨ rest ≠ []) then matchPat rest t
        else if star then
          match starLoop chunk rest.isEmpty name with
          | .error _ => .error ()
          | .ok (some t2) => matchPat rest t2
          | .ok none => checkRest rest
        else checkRest rest
termination_by pattern.length
decreasing_by
  · exact scanChunk_rest_lt _ (by simp)
  · exact scanChunk_rest_lt _ (by simp)

/-- Go `path/filepath.Match` (unix): shell glob with `*` (not crossing `/`),
`?`, character classes and backslash escapes; a malformed pattern is
`ErrBadPattern`. -/
def filepathMatch (pattern name : String) : Except Unit Bool :=
  matchPat pattern.toList name.toList

/-- Go `matchGlob`: `filepath.Match` with the error discarded. -/
def matchGlob (pattern value : String) : Bool :=
  match filepathMatch pattern value with
  | .ok b => b
  | .error _ => false

/-! ## Config loading with a target pattern (config.LoadWithPattern) -/

/-- The composite key the loader filter matches against: group_by tag values
joined by `":"`, with the Go zero value `""` for a missing tag (unlike the
group aggregator, `filterTargets` indexes the map directly). -/
def compositeKey (groupBy : List String) (t : TargetConfig) : String :=
  String.intercalate ":" (groupBy.map (fun k => mapGet t.Tags k))

/-- Go `filterTargets`: keep exactly the targets whose composite key matches
the glob pattern. -/
def filterTargets (targets : List TargetConfig) (pattern : String) (groupBy : List String) :
    List TargetConfig :=
  targets.filter (fun t => matchGlob pattern (compositeKey groupBy t))

/-- The group_by default applied by the loader when the config has none. -/
def effectiveGroupBy (parsed : Config) : List String :=
  if parsed.GroupBy.isEmpty then DefaultGroupBy else parsed.GroupBy

/-- The pure part of `LoadWithPattern` between the JSON decode and the
validation: default the group_by, then filter the targets unless the pattern
is empty or the literal `"*"`. -/
def loadStage (parsed : Config) (pattern : String) : Config :=
  let c1 : Config := { parsed with GroupBy := effectiveGroupBy parsed }
  if pattern ≠ "" ∧ pattern ≠ "*" then
    { c1 with Targets := filterTargets c1.Targets pattern c1.GroupBy }
  else c1

/-- Embedding of `LoadWithPattern` after the file read and JSON decode (both I/O):
stage the config, validate, and return it or the validation error. -/
def LoadWithPattern (parsed : Config) (pattern : String) : Except String Config :=
  match (loadStage parsed pattern).Validate with
  | .error e => .error e
  | .ok _ => .ok (loadStage parsed pattern)

/-- C8: loading with an empty pattern or the literal `"*"` keeps every
target; any other pattern keeps exactly the targets whose composite key
(group_by tag values joined by `":"`) matches it under `filepath.Match`
shell-glob semantics; the loaded config is the staged config when it
validates. -/
theorem C8_load_pattern_filter (parsed : Config) (pattern : String) :
    LoadWithPattern parsed pattern =
        ((loadStage parsed pattern).Validate).map (fun _ => loadStage parsed pattern) ∧
      ((pattern = "" ∨ pattern = "*") → (loadStage parsed pattern).Targets = parsed.Targets) ∧
      (pattern ≠ "" → pattern ≠ "*" →
        (loadStage parsed pattern).Targets =
          parsed.Targets.filter
            (fun t => matchGlob pattern (compositeKey (effectiveGroupBy parsed) t))) := by
  refine ⟨?_, ?_, ?_⟩
  · rw [LoadWithPattern]
    cases h : (loadStage parsed pattern).Validate with
    | error e => simp [h, Except.map]
    | ok u => cases u; simp [h, Except.map]
  · intro h
    rw [loadStage]
    rw [if_neg (by rcases h with h | h <;> simp [h])]
  · intro h1 h2
    rw [loadStage, if_pos ⟨h1, h2⟩]
    rfl

/-- A staging target whose composite key is `staging:sg:myapp`. -/
def sampleStagingTarget : TargetConfig :=
  { ID := "app-staging"
    Name := "app"
    Tags := [("environment", "staging"), ("region", "sg"), ("name", "myapp")]
    Labels := []
    DriverCmd := "driver.sh"
    Visual := []
    Variables := [] }

/-- A production target whose composite key is `prod:us:db`. -/
def sampleProdTarget : TargetConfig :=
  { ID := "db-prod"
    Name := "db"
    Tags := [("environment", "prod"), ("region", "us"), ("name", "db")]
    Labels := []
    DriverCmd := "driver.sh"
    Visual := []
    Variables := [] }

/-- A parsed config with no explicit group_by and two targets. -/
def sampleLoadCfg : Config :=
  { GroupBy := []
    Targets := [sampleStagingTarget, sampleProdTarget]
    Variables := [] }

/-- C8 witness: the filtering characterization at the concrete config, for
both the empty pattern and the glob `staging:*`. -/
theorem C8_load_pattern_filter_witness :
    (loadStage sampleLoadCfg "").Targets = sampleLoadCfg.Targets ∧
      (loadStage sampleLoadCfg "staging:*").Targets =
        sampleLoadCfg.Targets.filter
          (fun t => matchGlob "staging:*" (compositeKey (effectiveGroupBy sampleLoadCfg) t)) :=
  ⟨(C8_load_pattern_filter sampleLoadCfg "").2.1 (Or.inl rfl),
    (C8_load_pattern_filter sampleLoadCfg "staging:*").2.2 (by decide) (by decide)⟩

theorem parseRanges_err_c (r : Char) (acc : Bool) (n : Nat) :
    parseRanges r acc n ['c'] = .error () := by
  rw [parseRanges]
  simp [getEsc]

theorem parseRanges_err_bc (r : Char) (acc : Bool) (n : Nat) :
    parseRanges r acc n ['b', 'c'] = .error () := by
  rw [parseRanges]
  simp [getEsc, parseRanges_err_c]

theorem parseRanges_err_abc (r : Char) (acc : Bool) (n : Nat) :
    parseRanges r acc n ['a', 'b', 'c'] = .error () := by
  rw [parseRanges]
  simp [getEsc, parseRanges_err_bc]

theorem matchChunk_err_open_class (s : List Char) (failed : Bool) :
    matchChunk ['[', 'a', 'b', 'c'] s failed = .error () := by
  rw [matchChunk]
  simp
  split
  · rfl
  · rename_i matched chunkRest hpr
    rw [parseRanges_err_abc] at hpr
    cases hpr

theorem matchPat_err_open_class (name : List Char) :
    matchPat ['[', 'a', 'b', 'c'] name = .error () := by
  rw [matchPat]
  simp [scanChunk, stripStars, chunkScan]
  split
  · rfl
  · rename_i t ok hmc
    rw [matchChunk_err_open_class] at hmc
    cases hmc

theorem matchGlob_open_class_false (v : String) : matchGlob "[abc" v = false := by
  rw [matchGlob, filepathMatch]
  have h : ("[abc".toList) = ['[', 'a', 'b', 'c'] := rfl
  rw [h, matchPat_err_open_class]

/-- C10: a syntactically malformed pattern such as `"[abc"` is not reported:
`filepath.Match` returns `ErrBadPattern` for every value, the error is
discarded, so no composite key matches and the load succeeds with zero
targets. -/
theorem C10_bad_pattern_loads_empty (parsed : Config) :
    LoadWithPattern parsed "[abc" =
      .ok { parsed with GroupBy := effectiveGroupBy parsed, Targets := [] } := by
  have hf : filterTargets parsed.Targets "[abc" (effectiveGroupBy parsed) = [] := by
    have hp : (fun (t : TargetConfig) =>
        matchGlob "[abc" (compositeKey (effectiveGroupBy parsed) t)) = fun _ => false :=
      funext (fun t => matchGlob_open_class_false _)
    rw [filterTargets, hp]
    simp
  have hstage : loadStage parsed "[abc" =
      { parsed with GroupBy := effectiveGroupBy parsed, Targets := [] } := by
    rw [loadStage, if_pos (by constructor <;> decide)]
    rw [show ({ parsed with GroupBy := effectiveGroupBy parsed } : Config).Targets =
      parsed.Targets from rfl] at hf
    simp only [hf]
  rw [LoadWithPattern, hstage]
  rfl

end OpsNotebook
